import Mathlib

/-!
Shallow embedding of the CoinGecko price-delegate / rebalancing code of this
repository.  Decimals, floats and wall-clock times are modelled as rationals
(ℚ); Python `None` is `Option.none`; a Python function that may raise is an
`Except`-valued function; HTTP responses are passed in as explicit arguments
(the value the network would deliver on this call), so every function is a
pure state transformer that also reports how many network calls it made.
-/

namespace Py

/-- Python str.lower() on the ASCII symbols this code handles, modelled on
the character list of the string (Char.toLower lower-cases exactly the ASCII
upper-case letters). -/
def lower (s : String) : List Char :=
  s.data.map Char.toLower

end Py

namespace CoinGecko

/-- One entry of the provider catalog returned by /coins/list:
a {symbol, id} pair. -/
structure Coin where
  symbol : String
  id : String
  deriving DecidableEq, Repr

/-- A network-level failure of an HTTP request (connection error or a bad
status surfaced by raise_for_status). -/
inductive NetErr where
  | requestError
  deriving DecidableEq, Repr

/-- One entry of the /coins/{id}/tickers listing.  venue models
ticker.get("market", \x7b\x7d).get("identifier") (absent when either key is
missing); priceUsd models ticker.get("converted_last", \x7b\x7d).get("usd"). -/
structure Ticker where
  venue : Option String
  priceUsd : Option ℚ
  deriving DecidableEq, Repr

/-- The parsed JSON body of the tickers endpoint; the field is none when the
"tickers" key is absent. -/
structure TickersData where
  tickers : Option (List Ticker)
  deriving DecidableEq, Repr

/-- A tickers response as seen after the try/except around the request:
none models a caught RequestException (or bad status), some d a parsed body. -/
abbrev TickersResp := Option TickersData

/-- Scan of the ticker list in get_price_from_specific_market_coingecko:
for the FIRST entry whose market identifier equals the filter, return its
converted_last.usd field as-is (some price, or none when the matched entry
lacks the price field — the loop returns in both cases); none when no entry
matches. -/
def scanTickers : List Ticker → String → Option ℚ
  | [], _ => none
  | t :: rest, m =>
    if t.venue = some m then t.priceUsd else scanTickers rest m

/-- Embedding of get_price_from_specific_market_coingecko, the function body
shared verbatim by coin_gecko_asset_price_delegate.py, scripts/simple_pmm_cg.py,
controllers/market_making/pmm_simple_mexc.py and test.py: on a request error
return None; when the "tickers" key is missing or the list is empty return
None; otherwise scan for the first venue match. -/
def get_price_from_specific_market_coingecko (resp : TickersResp)
    (quote_market_identifier : String) : Option ℚ :=
  match resp with
  | none => none
  | some d =>
    match d.tickers with
    | none => none
    | some ts =>
      if ts.isEmpty then none
      else scanTickers ts quote_market_identifier

/-- Embedding of the catalog match loop shared by every get_coingecko_id
variant: the first catalog entry whose symbol matches case-insensitively
wins. -/
def findCoinId (data : List Coin) (symbol : String) : Option String :=
  (data.find? (fun c => Py.lower c.symbol = Py.lower symbol)).map
    (fun c => c.id)

end CoinGecko

namespace CoinGeckoAssetPriceDelegate

open CoinGecko

/-- Embedding of CoinGeckoAssetPriceDelegate.get_coingecko_id
(coin_gecko_asset_price_delegate.py, also the identical function in
pmm_simple_mexc.py): the whole request/parse/loop is wrapped in a
try/except that catches every exception and falls through to `return None`. -/
def get_coingecko_id (resp : Except NetErr (List Coin)) (symbol : String) :
    Option String :=
  match resp with
  | .error _ => none
  | .ok data => findCoinId data symbol

/-- Constructor arguments of CoinGeckoAssetPriceDelegate. -/
structure Config where
  base_token : String
  quote_market_identifier : String
  refresh_interval : ℚ
  deriving DecidableEq, Repr

/-- Mutable fields of a CoinGeckoAssetPriceDelegate instance:
the cached CoinGecko id, the cached price and its fetch timestamp
(initially none / none / 0). -/
structure State where
  base_token_coingecko_id : Option String
  last_cg_price : Option ℚ
  last_cg_price_time : ℚ
  deriving DecidableEq, Repr

/-- The value c_get_mid_price hands to its caller: either a Decimal price or
the Decimal(\x27NaN\x27) placeholder produced when last_cg_price is None. -/
inductive CGPrice where
  | nan
  | val (p : ℚ)
  deriving DecidableEq, Repr

/-- Number of catalog (coins/list) lookups and of ticker fetches the call
performed. -/
structure CallCounts where
  resolveCalls : ℕ
  fetchCalls : ℕ
  deriving DecidableEq, Repr

/-- Line 58 of the source: `self._last_cg_price if self._last_cg_price is not
None else Decimal(\x27NaN\x27)`. -/
def mkReturn : Option ℚ → CGPrice
  | none => CGPrice.nan
  | some p => CGPrice.val p

/-- Embedding of CoinGeckoAssetPriceDelegate.c_get_mid_price.  catalogResp and
tickersResp are what the two endpoints would deliver if called during this
invocation; the result is (returned price, new state, network calls made). -/
def c_get_mid_price (cfg : Config) (s : State)
    (catalogResp : Except NetErr (List Coin)) (tickersResp : TickersResp)
    (now : ℚ) : CGPrice × State × CallCounts :=
  let resolved :=
    match s.base_token_coingecko_id with
    | some i => (some i, 0)
    | none => (get_coingecko_id catalogResp cfg.base_token, 1)
  let s1 : State := { s with base_token_coingecko_id := resolved.1 }
  match resolved.1 with
  | some _ =>
    if s1.last_cg_price = none ∨
        now - s1.last_cg_price_time > cfg.refresh_interval then
      let cg := get_price_from_specific_market_coingecko tickersResp
        cfg.quote_market_identifier
      let s2 : State :=
        match cg with
        | some p => { s1 with last_cg_price := some p, last_cg_price_time := now }
        | none => s1
      (mkReturn s2.last_cg_price, s2, ⟨resolved.2, 1⟩)
    else
      (mkReturn s1.last_cg_price, s1, ⟨resolved.2, 0⟩)
  | none => (mkReturn s1.last_cg_price, s1, ⟨resolved.2, 0⟩)

end CoinGeckoAssetPriceDelegate

namespace CoinGeckoPriceDelegate

open CoinGecko

/-- Constructor arguments of CoinGeckoPriceDelegate
(custom_coingecko_price_delegate.py). -/
structure Config where
  base_token_id : String
  quote_market_identifier : String
  refresh_interval : ℚ
  deriving DecidableEq, Repr

/-- Mutable fields of a CoinGeckoPriceDelegate instance. -/
structure State where
  last_price : Option ℚ
  last_time : ℚ
  deriving DecidableEq, Repr

/-- The refresh loop of CoinGeckoPriceDelegate.get_price: unlike the other
variants it does NOT stop at a matched entry without a price — it keeps
scanning until it finds a matching entry that carries a price. -/
def findPricedTicker : List Ticker → String → Option ℚ
  | [], _ => none
  | t :: rest, m =>
    if t.venue = some m then
      match t.priceUsd with
      | some p => some p
      | none => findPricedTicker rest m
    else findPricedTicker rest m

/-- Outcome of the refresh attempt of CoinGeckoPriceDelegate.get_price, were
it issued: none for a caught request exception and for a scan that finds no
matching priced entry, some p for a successful scan. -/
def refreshResult (resp : TickersResp) (quote_market_identifier : String) :
    Option ℚ :=
  match resp with
  | none => none
  | some d => findPricedTicker (d.tickers.getD []) quote_market_identifier

/-- Embedding of CoinGeckoPriceDelegate.get_price: refresh when the cache is
empty or older than refresh_interval; a caught exception or an unsuccessful
scan leaves the cache untouched; the method always returns self._last_price
as it stands after the refresh attempt.  The third component counts the
ticker requests the call issued (1 exactly when the refresh branch ran). -/
def get_price (cfg : Config) (s : State) (resp : TickersResp) (now : ℚ) :
    Option ℚ × State × ℕ :=
  if s.last_price = none ∨ now - s.last_time > cfg.refresh_interval then
    match resp with
    | none => (s.last_price, s, 1)
    | some d =>
      match findPricedTicker (d.tickers.getD []) cfg.quote_market_identifier with
      | some p => (some p, { last_price := some p, last_time := now }, 1)
      | none => (s.last_price, s, 1)
  else (s.last_price, s, 0)

end CoinGeckoPriceDelegate

namespace SimplePmmCg

open CoinGecko

/-- Embedding of the module-level get_coingecko_id of scripts/simple_pmm_cg.py
(and, identically, of test.py): there is NO try/except around the request, so
a network error or bad status propagates to the caller as an exception. -/
def get_coingecko_id (resp : Except NetErr (List Coin)) (symbol : String) :
    Except NetErr (Option String) :=
  match resp with
  | .error e => .error e
  | .ok data => .ok (findCoinId data symbol)

/-- Order side, as used by the OrderCandidate values the script builds. -/
inductive TradeType where
  | BUY
  | SELL
  deriving DecidableEq, Repr

/-- The fields of an OrderCandidate that create_proposal determines. -/
structure OrderCandidate where
  order_side : TradeType
  amount : ℚ
  price : ℚ
  deriving DecidableEq, Repr

/-- Embedding of SimplePMMCMC.create_proposal: with no reference price the
method logs and returns the empty proposal; otherwise it builds exactly one
buy candidate at ref * (1 - bid_spread) and one sell candidate at
ref * (1 + ask_spread), both sized by the configured order amount. -/
def create_proposal (ref_price : Option ℚ) (bid_spread ask_spread
    order_amount : ℚ) : List OrderCandidate :=
  match ref_price with
  | none => []
  | some r =>
    [⟨TradeType.BUY, order_amount, r * (1 - bid_spread)⟩,
     ⟨TradeType.SELL, order_amount, r * (1 + ask_spread)⟩]

end SimplePmmCg

namespace LBank

/-- One entry of the account list returned by v2/supplement/user_info.do, as
get_token_details reads it: the coin symbol plus the three amount fields,
each of which may be absent from the dict. -/
structure Asset where
  coin : String
  usableAmt : Option String
  assetAmt : Option String
  freezeAmt : Option String
  deriving DecidableEq, Repr

/-- Embedding of LBankClient.get_token_details: first asset whose coin
matches case-insensitively; the empty dict returned on no match is modelled
as none (get_token_balance only tests its truthiness). -/
def get_token_details (account_info : List Asset) (token : String) :
    Option Asset :=
  account_info.find? (fun a => Py.lower a.coin = Py.lower token)

/-- The balance dict built by LBankClient.get_token_balance (the networks
field is omitted: no claim concerns it). -/
structure TokenBalance where
  token : String
  usable : String
  total : String
  frozen : String
  deriving DecidableEq, Repr

/-- Embedding of LBankClient.get_token_balance: when the token is found the
amount fields are read with a \x270\x27 default; when it is not found a dict of
literal \x270\x27 strings is returned — never an error. -/
def get_token_balance (account_info : List Asset) (token : String) :
    TokenBalance :=
  match get_token_details account_info token with
  | some a =>
    ⟨token, a.usableAmt.getD "0", a.assetAmt.getD "0", a.freezeAmt.getD "0"⟩
  | none => ⟨token, "0", "0", "0"⟩

/-- Python float() applied to the digit-string balances this code manipulates:
defined on nonempty strings of decimal digits (every string our theorems
apply it to has that shape; on such strings it agrees with float()), none
otherwise. -/
def pyFloat (s : String) : Option ℚ :=
  if s.data ≠ [] ∧ s.data.all Char.isDigit then
    some ((s.data.foldl (fun n c => n * 10 + (c.toNat - 48)) 0 : ℕ) : ℚ)
  else none

/-- Embedding of BalanceManager.get_current_balance: float() of the usable
field of the balance dict for the base token. -/
def get_current_balance (account_info : List Asset) (base_token : String) :
    Option ℚ :=
  pyFloat (get_token_balance account_info base_token).usable

/-- The decision BalanceManager.adjust_balance arrives at before delegating
to execute_market_order. -/
inductive RebalanceDecision where
  | noAction
  | buy (quoteAmount : ℚ)
  | sell (baseAmount : ℚ)
  deriving DecidableEq, Repr

/-- Embedding of the decision logic of BalanceManager.adjust_balance
(lines 123-145): the branch on current vs target, the dead-band test
difference >= min_difference, and the order sizing (buy orders are sized in
quote currency as difference * price, sell orders in base units). -/
def adjust_balance_decision (current_balance target_balance current_price
    min_difference : ℚ) : RebalanceDecision :=
  if current_balance < target_balance then
    let difference := target_balance - current_balance
    if difference ≥ min_difference then
      RebalanceDecision.buy (difference * current_price)
    else RebalanceDecision.noAction
  else if current_balance > target_balance then
    let difference := current_balance - target_balance
    if difference ≥ min_difference then
      RebalanceDecision.sell difference
    else RebalanceDecision.noAction
  else RebalanceDecision.noAction

end LBank

namespace CoinGecko

/-- Scanning a ticker list none of whose entries carries the wanted venue
identifier yields no price. -/
theorem scanTickers_of_no_match (m : String) :
    ∀ ts : List Ticker, (∀ u ∈ ts, u.venue ≠ some m) →
      scanTickers ts m = none := by
  intro ts
  induction ts with
  | nil => intro _; rfl
  | cons t rest ih =>
    intro h
    have ht : t.venue ≠ some m := h t (List.mem_cons_self t rest)
    simp only [scanTickers, if_neg ht]
    exact ih fun u hu => h u (List.mem_cons_of_mem t hu)

/-- When the wanted venue occurs exactly once in the list, the scan returns
that entry's price field, wherever the entry sits. -/
theorem scanTickers_of_unique_match (m : String) (t : Ticker) :
    ∀ ts : List Ticker, t ∈ ts → t.venue = some m →
      (∀ u ∈ ts, u.venue = some m → u = t) →
      scanTickers ts m = t.priceUsd := by
  intro ts
  induction ts with
  | nil => intro hmem; exact absurd hmem (List.not_mem_nil t)
  | cons u rest ih =>
    intro hmem hv huniq
    by_cases hu : u.venue = some m
    · have : u = t := huniq u (List.mem_cons_self u rest) hu
      subst this
      simp only [scanTickers, if_pos hu]
    · have hmem' : t ∈ rest := by
        rcases List.mem_cons.1 hmem with h | h
        · exact absurd (h ▸ hv) hu
        · exact h
      simp only [scanTickers, if_neg hu]
      exact ih hmem' hv fun v hvmem => huniq v (List.mem_cons_of_mem u hvmem)

/-- The scan stops at the first entry whose venue matches and returns its
price field verbatim, never looking past it. -/
theorem scanTickers_stops_at_first (m : String) (t : Ticker)
    (post : List Ticker) (hv : t.venue = some m) :
    ∀ pre : List Ticker, (∀ u ∈ pre, u.venue ≠ some m) →
      scanTickers (pre ++ t :: post) m = t.priceUsd := by
  intro pre
  induction pre with
  | nil => intro _; simp only [List.nil_append, scanTickers, if_pos hv]
  | cons u rest ih =>
    intro h
    have hu : u.venue ≠ some m := h u (List.mem_cons_self u rest)
    simp only [List.cons_append, scanTickers, if_neg hu]
    exact ih fun v hvmem => h v (List.mem_cons_of_mem u hvmem)

end CoinGecko

/-- C3: adjust_balance decides Buy with quote amount (target - current) * price
when target - current >= minDeviation, Sell of current - target base units
when current - target >= minDeviation, and NoAction otherwise (equality
included); the tie at exactly minDeviation acts.  Stated for the positive
dead-bands the host configures. -/
theorem c3_rebalance_deadband (current target price minDev : ℚ)
    (hpos : 0 < minDev) :
    (target - current ≥ minDev →
      LBank.adjust_balance_decision current target price minDev =
        LBank.RebalanceDecision.buy ((target - current) * price)) ∧
    (current - target ≥ minDev →
      LBank.adjust_balance_decision current target price minDev =
        LBank.RebalanceDecision.sell (current - target)) ∧
    (target - current < minDev → current - target < minDev →
      LBank.adjust_balance_decision current target price minDev =
        LBank.RebalanceDecision.noAction) := by
  unfold LBank.adjust_balance_decision
  refine ⟨?_, ?_, ?_⟩
  · intro h
    rw [if_pos (by linarith), if_pos h]
  · intro h
    rw [if_neg (by intro hc; linarith), if_pos (by linarith), if_pos h]
  · intro h1 h2
    by_cases hlt : current < target
    · rw [if_pos hlt, if_neg (by intro hc; linarith)]
    · by_cases hgt : current > target
      · rw [if_neg hlt, if_pos hgt, if_neg (by intro hc; linarith)]
      · rw [if_neg hlt, if_neg hgt]

/-- Witness for C3 at the spec's own test vectors. -/
theorem c3_rebalance_deadband_witness :
    (0 : ℚ) < 11500 ∧
    LBank.adjust_balance_decision 48500 60000 1 11500 =
      LBank.RebalanceDecision.buy ((60000 - 48500) * 1) ∧
    LBank.adjust_balance_decision 48501 60000 1 11500 =
      LBank.RebalanceDecision.noAction :=
  ⟨by norm_num,
   (c3_rebalance_deadband 48500 60000 1 11500 (by norm_num)).1 (by norm_num),
   (c3_rebalance_deadband 48501 60000 1 11500 (by norm_num)).2.2
     (by norm_num) (by norm_num)⟩

/-- C5: the ticker scan selects an entry only on exact string equality of its
venue identifier with the market filter: a uniquely matching entry's price is
returned wherever other venues sit in the list, and when no entry's venue
equals the filter the fetch is absent. -/
theorem c5_venue_exact_match (ts : List CoinGecko.Ticker) (m : String) :
    (∀ (t : CoinGecko.Ticker) (p : ℚ), t ∈ ts → t.venue = some m →
      t.priceUsd = some p → (∀ u ∈ ts, u.venue = some m → u = t) →
      CoinGecko.get_price_from_specific_market_coingecko (some ⟨some ts⟩) m =
        some p) ∧
    ((∀ u ∈ ts, u.venue ≠ some m) →
      CoinGecko.get_price_from_specific_market_coingecko (some ⟨some ts⟩) m =
        none) := by
  constructor
  · intro t p hmem hv hp huniq
    have hne : ts ≠ [] := by
      intro h
      rw [h] at hmem
      exact List.not_mem_nil t hmem
    simp only [CoinGecko.get_price_from_specific_market_coingecko,
      List.isEmpty_iff, if_neg hne]
    rw [CoinGecko.scanTickers_of_unique_match m t ts hmem hv huniq, hp]
  · intro h2
    by_cases hne : ts = []
    · subst hne
      rfl
    · simp only [CoinGecko.get_price_from_specific_market_coingecko,
        List.isEmpty_iff, if_neg hne]
      exact CoinGecko.scanTickers_of_no_match m ts h2

/-- Witness for C5 on the spec's three-venue example list. -/
theorem c5_venue_exact_match_witness :
    (⟨some "B", some 2⟩ : CoinGecko.Ticker) ∈
      [(⟨some "A", some 1⟩ : CoinGecko.Ticker), ⟨some "B", some 2⟩,
       ⟨some "C", some 3⟩] ∧
    CoinGecko.get_price_from_specific_market_coingecko
      (some ⟨some [⟨some "A", some 1⟩, ⟨some "B", some 2⟩,
        ⟨some "C", some 3⟩]⟩) "B" = some 2 ∧
    CoinGecko.get_price_from_specific_market_coingecko
      (some ⟨some [⟨some "A", some 1⟩, ⟨some "B", some 2⟩,
        ⟨some "C", some 3⟩]⟩) "Z" = none := by
  refine ⟨by decide, ?_, ?_⟩
  · exact (c5_venue_exact_match
      [⟨some "A", some 1⟩, ⟨some "B", some 2⟩, ⟨some "C", some 3⟩] "B").1
      ⟨some "B", some 2⟩ 2 (by decide) (by decide) (by decide) (by decide)
  · exact (c5_venue_exact_match
      [⟨some "A", some 1⟩, ⟨some "B", some 2⟩, ⟨some "C", some 3⟩] "Z").2
      (by decide)

/-- C7: create_proposal yields no order candidates when the reference price is
absent, and otherwise exactly a buy at refPrice * (1 - bidSpread) and a sell
at refPrice * (1 + askSpread), unclamped and unrounded; in particular spreads
of 0.002 on a reference of 100 give 99.8 and 100.2. -/
theorem c7_quote_gate :
    (∀ b a amt : ℚ, SimplePmmCg.create_proposal none b a amt = []) ∧
    (∀ r b a amt : ℚ, SimplePmmCg.create_proposal (some r) b a amt =
      [⟨SimplePmmCg.TradeType.BUY, amt, r * (1 - b)⟩,
       ⟨SimplePmmCg.TradeType.SELL, amt, r * (1 + a)⟩]) ∧
    (SimplePmmCg.create_proposal (some 100) (1/500) (1/500) 22000 =
      [⟨SimplePmmCg.TradeType.BUY, 22000, 499/5⟩,
       ⟨SimplePmmCg.TradeType.SELL, 22000, 501/5⟩]) := by
  refine ⟨fun _ _ _ => rfl, fun _ _ _ _ => rfl, ?_⟩
  simp only [SimplePmmCg.create_proposal]
  norm_num

/-- C9: when the first venue-matching entry of the ticker list lacks the USD
price field, the fetch is absent, whatever later entries — even later entries
for the same venue carrying a valid price — contain. -/
theorem c9_first_match_wins (pre post : List CoinGecko.Ticker)
    (t : CoinGecko.Ticker) (m : String)
    (hpre : ∀ u ∈ pre, u.venue ≠ some m) (hv : t.venue = some m)
    (hp : t.priceUsd = none) :
    CoinGecko.get_price_from_specific_market_coingecko
      (some ⟨some (pre ++ t :: post)⟩) m = none := by
  have hne : pre ++ t :: post ≠ [] := by
    intro h
    exact List.cons_ne_nil t post (List.append_eq_nil.1 h).2
  simp only [CoinGecko.get_price_from_specific_market_coingecko,
    List.isEmpty_iff, if_neg hne]
  rw [CoinGecko.scanTickers_stops_at_first m t post hv pre hpre, hp]

/-- Witness for C9: a price-less entry for venue B followed by a priced entry
for the same venue B still yields absence. -/
theorem c9_first_match_wins_witness :
    ((⟨some "B", none⟩ : CoinGecko.Ticker).venue = some "B") ∧
    CoinGecko.get_price_from_specific_market_coingecko
      (some ⟨some [⟨some "B", none⟩, ⟨some "B", some 5⟩]⟩) "B" = none :=
  ⟨by decide,
   c9_first_match_wins [] [⟨some "B", some 5⟩] ⟨some "B", none⟩ "B"
     (by decide) (by decide) (by decide)⟩

/-- C10: a token absent from the account asset list (under the code's
case-insensitive match) produces a balance snapshot whose usable, total and
frozen fields are all the string "0" — no error is signalled — so the
rebalance layer reads a current balance of 0 and, whenever the target is
positive and at least the dead-band, decides a full-target Buy sized
target * price. -/
theorem c10_unknown_token_zero_balance (account : List LBank.Asset)
    (token : String) (target price minDiff : ℚ)
    (habs : ∀ a ∈ account, Py.lower a.coin ≠ Py.lower token)
    (hmin : minDiff ≤ target) (hpos : 0 < target) :
    LBank.get_token_balance account token =
      ⟨token, "0", "0", "0"⟩ ∧
    LBank.get_current_balance account token = some 0 ∧
    LBank.adjust_balance_decision 0 target price minDiff =
      LBank.RebalanceDecision.buy (target * price) := by
  have hfind : LBank.get_token_details account token = none := by
    simp only [LBank.get_token_details, List.find?_eq_none,
      decide_eq_true_eq]
    exact habs
  have hbal : LBank.get_token_balance account token = ⟨token, "0", "0", "0"⟩ := by
    simp only [LBank.get_token_balance, hfind]
  refine ⟨hbal, ?_, ?_⟩
  · simp only [LBank.get_current_balance, hbal]
    decide
  · unfold LBank.adjust_balance_decision
    rw [if_pos (by linarith), if_pos (by simpa using hmin)]
    norm_num

/-- Witness for C10: the asset list holds only usdt, the balance for mntl is
requested. -/
theorem c10_unknown_token_zero_balance_witness :
    (∀ a ∈ [(⟨"usdt", some "5", none, none⟩ : LBank.Asset)],
      Py.lower a.coin ≠ Py.lower "mntl") ∧
    (11500 : ℚ) ≤ 60000 ∧ (0 : ℚ) < 60000 ∧
    (LBank.get_token_balance [⟨"usdt", some "5", none, none⟩] "mntl" =
      ⟨"mntl", "0", "0", "0"⟩ ∧
    LBank.get_current_balance [⟨"usdt", some "5", none, none⟩] "mntl" =
      some 0 ∧
    LBank.adjust_balance_decision 0 60000 (1/2) 11500 =
      LBank.RebalanceDecision.buy (60000 * (1/2))) :=
  ⟨by decide, by norm_num, by norm_num,
   c10_unknown_token_zero_balance [⟨"usdt", some "5", none, none⟩] "mntl"
     60000 (1/2) 11500 (by decide) (by norm_num) (by norm_num)⟩

namespace CoinGeckoAssetPriceDelegate

/-- A call on a delegate whose CoinGecko id is already cached performs no
catalog lookup and keeps that id. -/
theorem resolve_cached (cfg : Config) (s : State)
    (cat : Except CoinGecko.NetErr (List CoinGecko.Coin))
    (tick : CoinGecko.TickersResp) (now : ℚ) (i : String)
    (h : s.base_token_coingecko_id = some i) :
    (c_get_mid_price cfg s cat tick now).2.2.resolveCalls = 0 ∧
    (c_get_mid_price cfg s cat tick now).2.1.base_token_coingecko_id =
      some i := by
  simp only [c_get_mid_price, h]
  constructor
  · split
    · rfl
    · rfl
  · split
    · split
      · rfl
      · rfl
    · rfl

/-- A call on a delegate whose CoinGecko id is not yet cached performs one
catalog lookup and stores exactly its outcome. -/
theorem resolve_fresh (cfg : Config) (s : State)
    (cat : Except CoinGecko.NetErr (List CoinGecko.Coin))
    (tick : CoinGecko.TickersResp) (now : ℚ)
    (h : s.base_token_coingecko_id = none) :
    (c_get_mid_price cfg s cat tick now).2.2.resolveCalls = 1 ∧
    (c_get_mid_price cfg s cat tick now).2.1.base_token_coingecko_id =
      get_coingecko_id cat cfg.base_token := by
  simp only [c_get_mid_price, h]
  cases hr : get_coingecko_id cat cfg.base_token with
  | none => exact ⟨rfl, rfl⟩
  | some i =>
    by_cases hif : s.last_cg_price = none ∨
        now - s.last_cg_price_time > cfg.refresh_interval
    · rw [if_pos hif]
      cases hc : CoinGecko.get_price_from_specific_market_coingecko tick
          cfg.quote_market_identifier with
      | none => exact ⟨rfl, rfl⟩
      | some p => exact ⟨rfl, rfl⟩
    · rw [if_neg hif]
      exact ⟨rfl, rfl⟩

end CoinGeckoAssetPriceDelegate

/-- C1 counterexample: a delegate holding a cached price 5 fetched at time 0,
queried at time 100 (stale) while the tickers request errors out, returns the
previously cached price 5 — not absent — and the custom variant behaves the
same way; the claim that such a call "returns absent — not any previously
cached price" is therefore false on the code. -/
theorem c1_counterexample :
    (CoinGeckoAssetPriceDelegate.c_get_mid_price ⟨"MNTL", "osmosis", 30⟩
      ⟨some "assetmantle", some 5, 0⟩ (Except.ok []) none 100).1 =
      CoinGeckoAssetPriceDelegate.CGPrice.val 5 ∧
    (CoinGeckoPriceDelegate.get_price ⟨"assetmantle", "osmosis", 30⟩
      ⟨some 5, 0⟩ none 100).1 = some 5 := by
  constructor
  · simp only [CoinGeckoAssetPriceDelegate.c_get_mid_price]
    rw [if_pos (Or.inr (by norm_num))]
    rfl
  · simp only [CoinGeckoPriceDelegate.get_price]
    rw [if_pos (Or.inr (by norm_num))]

/-- C1 (amended): when the refresh fetch of a call fails (or would fail were
it issued), the cached PriceReading and its timestamp are left exactly as
they were — in every resolution state of the delegate, fresh resolution
included — and the call returns the previously cached price when one exists
(the NaN placeholder in the delegate, None in the custom variant, when none
does) rather than absent; the same holds for CoinGeckoPriceDelegate.get_price,
whose whole state is left untouched. -/
theorem c1_failed_fetch_keeps_cache (cfg : CoinGeckoAssetPriceDelegate.Config)
    (s : CoinGeckoAssetPriceDelegate.State)
    (cat : Except CoinGecko.NetErr (List CoinGecko.Coin))
    (tick : CoinGecko.TickersResp) (now : ℚ)
    (cfgc : CoinGeckoPriceDelegate.Config)
    (sc : CoinGeckoPriceDelegate.State) (respc : CoinGecko.TickersResp)
    (nowc : ℚ)
    (hfail : CoinGecko.get_price_from_specific_market_coingecko tick
      cfg.quote_market_identifier = none)
    (hfailc : CoinGeckoPriceDelegate.refreshResult respc
      cfgc.quote_market_identifier = none) :
    ((CoinGeckoAssetPriceDelegate.c_get_mid_price cfg s cat tick
        now).2.1.last_cg_price = s.last_cg_price ∧
      (CoinGeckoAssetPriceDelegate.c_get_mid_price cfg s cat tick
        now).2.1.last_cg_price_time = s.last_cg_price_time ∧
      (CoinGeckoAssetPriceDelegate.c_get_mid_price cfg s cat tick now).1 =
        CoinGeckoAssetPriceDelegate.mkReturn s.last_cg_price) ∧
    ((CoinGeckoPriceDelegate.get_price cfgc sc respc nowc).2.1 = sc ∧
      (CoinGeckoPriceDelegate.get_price cfgc sc respc nowc).1 =
        sc.last_price) := by
  constructor
  · simp only [CoinGeckoAssetPriceDelegate.c_get_mid_price, hfail]
    cases hid : s.base_token_coingecko_id with
    | none =>
      cases hr : CoinGeckoAssetPriceDelegate.get_coingecko_id cat
          cfg.base_token with
      | none => exact ⟨rfl, rfl, rfl⟩
      | some i =>
        by_cases hif : s.last_cg_price = none ∨
            now - s.last_cg_price_time > cfg.refresh_interval
        · rw [if_pos hif]
          exact ⟨rfl, rfl, rfl⟩
        · rw [if_neg hif]
          exact ⟨rfl, rfl, rfl⟩
    | some i =>
      by_cases hif : s.last_cg_price = none ∨
          now - s.last_cg_price_time > cfg.refresh_interval
      · rw [if_pos hif]
        exact ⟨rfl, rfl, rfl⟩
      · rw [if_neg hif]
        exact ⟨rfl, rfl, rfl⟩
  · simp only [CoinGeckoPriceDelegate.get_price]
    by_cases hif : sc.last_price = none ∨
        nowc - sc.last_time > cfgc.refresh_interval
    · rw [if_pos hif]
      cases hresp : respc with
      | none => exact ⟨rfl, rfl⟩
      | some d =>
        simp only [CoinGeckoPriceDelegate.refreshResult, hresp] at hfailc
        simp [hfailc]
    · rw [if_neg hif]
      exact ⟨rfl, rfl⟩

/-- Witness for the amended C1 at concrete stale caches and failing fetches
of both variants. -/
theorem c1_failed_fetch_keeps_cache_witness :
    (CoinGecko.get_price_from_specific_market_coingecko none "osmosis" =
      none) ∧
    (CoinGeckoPriceDelegate.refreshResult none "osmosis" = none) ∧
    (((CoinGeckoAssetPriceDelegate.c_get_mid_price ⟨"MNTL", "osmosis", 30⟩
        ⟨some "assetmantle", some 7, 0⟩ (Except.ok []) none
        100).2.1.last_cg_price =
      (⟨some "assetmantle", some 7, 0⟩ :
        CoinGeckoAssetPriceDelegate.State).last_cg_price ∧
    (CoinGeckoAssetPriceDelegate.c_get_mid_price ⟨"MNTL", "osmosis", 30⟩
        ⟨some "assetmantle", some 7, 0⟩ (Except.ok []) none
        100).2.1.last_cg_price_time =
      (⟨some "assetmantle", some 7, 0⟩ :
        CoinGeckoAssetPriceDelegate.State).last_cg_price_time ∧
    (CoinGeckoAssetPriceDelegate.c_get_mid_price ⟨"MNTL", "osmosis", 30⟩
        ⟨some "assetmantle", some 7, 0⟩ (Except.ok []) none 100).1 =
      CoinGeckoAssetPriceDelegate.mkReturn
        (⟨some "assetmantle", some 7, 0⟩ :
          CoinGeckoAssetPriceDelegate.State).last_cg_price) ∧
    ((CoinGeckoPriceDelegate.get_price ⟨"assetmantle", "osmosis", 30⟩
        ⟨some 7, 0⟩ none 100).2.1 =
      (⟨some 7, 0⟩ : CoinGeckoPriceDelegate.State) ∧
    (CoinGeckoPriceDelegate.get_price ⟨"assetmantle", "osmosis", 30⟩
        ⟨some 7, 0⟩ none 100).1 =
      (⟨some 7, 0⟩ : CoinGeckoPriceDelegate.State).last_price)) :=
  ⟨rfl, rfl,
   c1_failed_fetch_keeps_cache ⟨"MNTL", "osmosis", 30⟩
     ⟨some "assetmantle", some 7, 0⟩ (Except.ok []) none 100
     ⟨"assetmantle", "osmosis", 30⟩ ⟨some 7, 0⟩ none 100 rfl rfl⟩

/-- C2 counterexample: with a price cached at time 0 and TTL 30, a call at
time exactly 30 (now - t = TTL) issues NO new fetch and returns the cached
value, although the tickers endpoint would have served a different price 7;
the claim that now - t >= TTL triggers exactly one fetch is therefore false
at the boundary. -/
theorem c2_counterexample :
    (CoinGeckoAssetPriceDelegate.c_get_mid_price ⟨"MNTL", "osmosis", 30⟩
      ⟨some "assetmantle", some 5, 0⟩ (Except.ok [])
      (some ⟨some [⟨some "osmosis", some 7⟩]⟩) 30).2.2.fetchCalls = 0 ∧
    (CoinGeckoAssetPriceDelegate.c_get_mid_price ⟨"MNTL", "osmosis", 30⟩
      ⟨some "assetmantle", some 5, 0⟩ (Except.ok [])
      (some ⟨some [⟨some "osmosis", some 7⟩]⟩) 30).1 =
      CoinGeckoAssetPriceDelegate.CGPrice.val 5 := by
  constructor
  · simp only [CoinGeckoAssetPriceDelegate.c_get_mid_price]
    rw [if_neg (by push_neg; exact ⟨by simp, by norm_num⟩)]
  · simp only [CoinGeckoAssetPriceDelegate.c_get_mid_price]
    rw [if_neg (by push_neg; exact ⟨by simp, by norm_num⟩)]
    rfl

/-- C2 (amended): after a successful fetch of value v at time t, a call at
time now with now - t <= TTL returns the identical cached value and issues no
fetch, and a call with now - t > TTL (strictly) issues exactly one new
fetch; the boundary now - t = TTL is a cache hit, matching the spec's
freshness rule now - observedAt <= TTL.  The same holds for the custom
variant CoinGeckoPriceDelegate.get_price. -/
theorem c2_cache_ttl (cfg : CoinGeckoAssetPriceDelegate.Config)
    (s : CoinGeckoAssetPriceDelegate.State)
    (cat : Except CoinGecko.NetErr (List CoinGecko.Coin))
    (tick : CoinGecko.TickersResp) (now t v : ℚ) (i : String)
    (cfgc : CoinGeckoPriceDelegate.Config)
    (sc : CoinGeckoPriceDelegate.State) (respc : CoinGecko.TickersResp)
    (nowc tc vc : ℚ)
    (hres : s.base_token_coingecko_id = some i)
    (hv : s.last_cg_price = some v) (ht : s.last_cg_price_time = t)
    (hvc : sc.last_price = some vc) (htc : sc.last_time = tc) :
    (now - t ≤ cfg.refresh_interval →
      (CoinGeckoAssetPriceDelegate.c_get_mid_price cfg s cat tick now).1 =
        CoinGeckoAssetPriceDelegate.CGPrice.val v ∧
      (CoinGeckoAssetPriceDelegate.c_get_mid_price cfg s cat tick
        now).2.2.fetchCalls = 0) ∧
    (now - t > cfg.refresh_interval →
      (CoinGeckoAssetPriceDelegate.c_get_mid_price cfg s cat tick
        now).2.2.fetchCalls = 1) ∧
    (nowc - tc ≤ cfgc.refresh_interval →
      (CoinGeckoPriceDelegate.get_price cfgc sc respc nowc).1 = some vc ∧
      (CoinGeckoPriceDelegate.get_price cfgc sc respc nowc).2.2 = 0) ∧
    (nowc - tc > cfgc.refresh_interval →
      (CoinGeckoPriceDelegate.get_price cfgc sc respc nowc).2.2 = 1) := by
  refine ⟨?_, ?_, ?_, ?_⟩
  · intro hle
    simp only [CoinGeckoAssetPriceDelegate.c_get_mid_price, hres, hv, ht]
    rw [if_neg (by push_neg; exact ⟨by simp, by linarith⟩)]
    exact ⟨rfl, rfl⟩
  · intro hgt
    simp only [CoinGeckoAssetPriceDelegate.c_get_mid_price, hres, hv, ht]
    rw [if_pos (Or.inr hgt)]
  · intro hle
    simp only [CoinGeckoPriceDelegate.get_price, hvc, htc]
    rw [if_neg (by push_neg; exact ⟨by simp, by linarith⟩)]
    exact ⟨rfl, rfl⟩
  · intro hgt
    simp only [CoinGeckoPriceDelegate.get_price, hvc, htc]
    rw [if_pos (Or.inr hgt)]
    cases respc with
    | none => rfl
    | some d =>
      cases hfp : CoinGeckoPriceDelegate.findPricedTicker (d.tickers.getD [])
          cfgc.quote_market_identifier with
      | none => simp [hfp]
      | some p => simp [hfp]

/-- Witness for the amended C2: both variants hold cache value 5 stored at
time 0 with TTL 30, probed at time 20 (hit, no fetch) and at time 100 (one
fetch). -/
theorem c2_cache_ttl_witness :
    ((⟨some "assetmantle", some 5, 0⟩ :
        CoinGeckoAssetPriceDelegate.State).base_token_coingecko_id =
      some "assetmantle") ∧
    ((⟨some "assetmantle", some 5, 0⟩ :
        CoinGeckoAssetPriceDelegate.State).last_cg_price = some 5) ∧
    ((⟨some "assetmantle", some 5, 0⟩ :
        CoinGeckoAssetPriceDelegate.State).last_cg_price_time = 0) ∧
    ((⟨some 5, 0⟩ : CoinGeckoPriceDelegate.State).last_price = some 5) ∧
    ((⟨some 5, 0⟩ : CoinGeckoPriceDelegate.State).last_time = 0) ∧
    ((CoinGeckoAssetPriceDelegate.c_get_mid_price ⟨"MNTL", "osmosis", 30⟩
        ⟨some "assetmantle", some 5, 0⟩ (Except.ok []) none 20).1 =
      CoinGeckoAssetPriceDelegate.CGPrice.val 5 ∧
    (CoinGeckoAssetPriceDelegate.c_get_mid_price ⟨"MNTL", "osmosis", 30⟩
        ⟨some "assetmantle", some 5, 0⟩ (Except.ok []) none
        20).2.2.fetchCalls = 0) ∧
    (CoinGeckoAssetPriceDelegate.c_get_mid_price ⟨"MNTL", "osmosis", 30⟩
        ⟨some "assetmantle", some 5, 0⟩ (Except.ok []) none
        100).2.2.fetchCalls = 1 ∧
    ((CoinGeckoPriceDelegate.get_price ⟨"assetmantle", "osmosis", 30⟩
        ⟨some 5, 0⟩ none 20).1 = some 5 ∧
    (CoinGeckoPriceDelegate.get_price ⟨"assetmantle", "osmosis", 30⟩
        ⟨some 5, 0⟩ none 20).2.2 = 0) ∧
    (CoinGeckoPriceDelegate.get_price ⟨"assetmantle", "osmosis", 30⟩
        ⟨some 5, 0⟩ none 100).2.2 = 1 :=
  ⟨rfl, rfl, rfl, rfl, rfl,
   (c2_cache_ttl ⟨"MNTL", "osmosis", 30⟩ ⟨some "assetmantle", some 5, 0⟩
     (Except.ok []) none 20 0 5 "assetmantle" ⟨"assetmantle", "osmosis", 30⟩
     ⟨some 5, 0⟩ none 20 0 5 rfl rfl rfl rfl rfl).1 (by norm_num),
   (c2_cache_ttl ⟨"MNTL", "osmosis", 30⟩ ⟨some "assetmantle", some 5, 0⟩
     (Except.ok []) none 100 0 5 "assetmantle" ⟨"assetmantle", "osmosis", 30⟩
     ⟨some 5, 0⟩ none 100 0 5 rfl rfl rfl rfl rfl).2.1 (by norm_num),
   (c2_cache_ttl ⟨"MNTL", "osmosis", 30⟩ ⟨some "assetmantle", some 5, 0⟩
     (Except.ok []) none 20 0 5 "assetmantle" ⟨"assetmantle", "osmosis", 30⟩
     ⟨some 5, 0⟩ none 20 0 5 rfl rfl rfl rfl rfl).2.2.1 (by norm_num),
   (c2_cache_ttl ⟨"MNTL", "osmosis", 30⟩ ⟨some "assetmantle", some 5, 0⟩
     (Except.ok []) none 100 0 5 "assetmantle" ⟨"assetmantle", "osmosis", 30⟩
     ⟨some 5, 0⟩ none 100 0 5 rfl rfl rfl rfl rfl).2.2.2 (by norm_num)⟩

/-- C4 counterexample: a delegate with no cached reading whose fetch fails
returns the Decimal NaN placeholder (not absence), and a ticker entry whose
converted USD price is 0 is passed through so the oracle returns the value 0
downstream; both outcomes contradict the claimed positive-or-absent
invariant. -/
theorem c4_counterexample :
    (CoinGeckoAssetPriceDelegate.c_get_mid_price ⟨"MNTL", "osmosis", 30⟩
      ⟨some "assetmantle", none, 0⟩ (Except.ok []) none 100).1 =
      CoinGeckoAssetPriceDelegate.CGPrice.nan ∧
    (CoinGeckoAssetPriceDelegate.c_get_mid_price ⟨"MNTL", "osmosis", 30⟩
      ⟨some "assetmantle", none, 0⟩ (Except.ok [])
      (some ⟨some [⟨some "osmosis", some 0⟩]⟩) 100).1 =
      CoinGeckoAssetPriceDelegate.CGPrice.val 0 := by
  constructor <;>
    · simp only [CoinGeckoAssetPriceDelegate.c_get_mid_price]
      rw [if_pos (Or.inl trivial)]
      rfl

/-- C4 (amended): the value c_get_mid_price returns is exactly the post-call
cached reading — the Decimal NaN placeholder when none has ever been cached,
rather than absence — and any cached reading is either the prior one or the
unchecked price extracted by this call's fetch (no positivity or finiteness
filter is applied); only the inner fetch helper signals failure by
absence. -/
theorem c4_return_is_cache (cfg : CoinGeckoAssetPriceDelegate.Config)
    (s : CoinGeckoAssetPriceDelegate.State)
    (cat : Except CoinGecko.NetErr (List CoinGecko.Coin))
    (tick : CoinGecko.TickersResp) (now : ℚ) :
    (CoinGeckoAssetPriceDelegate.c_get_mid_price cfg s cat tick now).1 =
      CoinGeckoAssetPriceDelegate.mkReturn
        (CoinGeckoAssetPriceDelegate.c_get_mid_price cfg s cat tick
          now).2.1.last_cg_price ∧
    ((CoinGeckoAssetPriceDelegate.c_get_mid_price cfg s cat tick
        now).2.1.last_cg_price = s.last_cg_price ∨
      ∃ p, CoinGecko.get_price_from_specific_market_coingecko tick
          cfg.quote_market_identifier = some p ∧
        (CoinGeckoAssetPriceDelegate.c_get_mid_price cfg s cat tick
          now).2.1.last_cg_price = some p) := by
  simp only [CoinGeckoAssetPriceDelegate.c_get_mid_price]
  cases hid : s.base_token_coingecko_id with
  | none =>
    cases hr : CoinGeckoAssetPriceDelegate.get_coingecko_id cat
        cfg.base_token with
    | none => exact ⟨rfl, Or.inl rfl⟩
    | some i =>
      by_cases hif : s.last_cg_price = none ∨
          now - s.last_cg_price_time > cfg.refresh_interval
      · rw [if_pos hif]
        cases hc : CoinGecko.get_price_from_specific_market_coingecko tick
            cfg.quote_market_identifier with
        | none => exact ⟨rfl, Or.inl rfl⟩
        | some p => exact ⟨rfl, Or.inr ⟨p, rfl, rfl⟩⟩
      · rw [if_neg hif]
        exact ⟨rfl, Or.inl rfl⟩
  | some i =>
    by_cases hif : s.last_cg_price = none ∨
        now - s.last_cg_price_time > cfg.refresh_interval
    · rw [if_pos hif]
      cases hc : CoinGecko.get_price_from_specific_market_coingecko tick
          cfg.quote_market_identifier with
      | none => exact ⟨rfl, Or.inl rfl⟩
      | some p => exact ⟨rfl, Or.inr ⟨p, rfl, rfl⟩⟩
    · rw [if_neg hif]
      exact ⟨rfl, Or.inl rfl⟩

/-- C6: a successful symbol resolution is cached for the delegate's lifetime
— the second of two consecutive calls performs no catalog lookup, so the two
calls make one catalog call total — while a failed resolution is never
cached: the state keeps no id and the next call performs the catalog lookup
again. -/
theorem c6_resolution_memoization (cfg : CoinGeckoAssetPriceDelegate.Config)
    (s : CoinGeckoAssetPriceDelegate.State)
    (cat1 cat2 : Except CoinGecko.NetErr (List CoinGecko.Coin))
    (tick1 tick2 : CoinGecko.TickersResp) (now1 now2 : ℚ)
    (h : s.base_token_coingecko_id = none) :
    (CoinGeckoAssetPriceDelegate.c_get_mid_price cfg s cat1 tick1
      now1).2.2.resolveCalls = 1 ∧
    (∀ i, CoinGeckoAssetPriceDelegate.get_coingecko_id cat1 cfg.base_token =
        some i →
      (CoinGeckoAssetPriceDelegate.c_get_mid_price cfg s cat1 tick1
        now1).2.1.base_token_coingecko_id = some i ∧
      (CoinGeckoAssetPriceDelegate.c_get_mid_price cfg
        (CoinGeckoAssetPriceDelegate.c_get_mid_price cfg s cat1 tick1
          now1).2.1 cat2 tick2 now2).2.2.resolveCalls = 0) ∧
    (CoinGeckoAssetPriceDelegate.get_coingecko_id cat1 cfg.base_token =
        none →
      (CoinGeckoAssetPriceDelegate.c_get_mid_price cfg s cat1 tick1
        now1).2.1.base_token_coingecko_id = none ∧
      (CoinGeckoAssetPriceDelegate.c_get_mid_price cfg
        (CoinGeckoAssetPriceDelegate.c_get_mid_price cfg s cat1 tick1
          now1).2.1 cat2 tick2 now2).2.2.resolveCalls = 1) := by
  obtain ⟨hcalls, hid⟩ := CoinGeckoAssetPriceDelegate.resolve_fresh cfg s
    cat1 tick1 now1 h
  refine ⟨hcalls, ?_, ?_⟩
  · intro i hi
    have hid1 : (CoinGeckoAssetPriceDelegate.c_get_mid_price cfg s cat1 tick1
        now1).2.1.base_token_coingecko_id = some i := hid.trans hi
    exact ⟨hid1, (CoinGeckoAssetPriceDelegate.resolve_cached cfg _ cat2 tick2
      now2 i hid1).1⟩
  · intro hnone
    have hid1 : (CoinGeckoAssetPriceDelegate.c_get_mid_price cfg s cat1 tick1
        now1).2.1.base_token_coingecko_id = none := hid.trans hnone
    exact ⟨hid1, (CoinGeckoAssetPriceDelegate.resolve_fresh cfg _ cat2 tick2
      now2 hid1).1⟩

/-- Witness for C6: a fresh delegate resolved against a catalog containing
mntl (success: one lookup across two calls) and against an erroring catalog
(failure: a lookup on both calls). -/
theorem c6_resolution_memoization_witness :
    ((⟨none, none, 0⟩ :
        CoinGeckoAssetPriceDelegate.State).base_token_coingecko_id =
      none) ∧
    (CoinGeckoAssetPriceDelegate.get_coingecko_id
      (Except.ok [⟨"mntl", "assetmantle"⟩]) "MNTL" = some "assetmantle") ∧
    (CoinGeckoAssetPriceDelegate.get_coingecko_id
      (Except.error CoinGecko.NetErr.requestError) "MNTL" = none) ∧
    ((CoinGeckoAssetPriceDelegate.c_get_mid_price ⟨"MNTL", "osmosis", 30⟩
        ⟨none, none, 0⟩ (Except.ok [⟨"mntl", "assetmantle"⟩]) none
        10).2.1.base_token_coingecko_id = some "assetmantle" ∧
      (CoinGeckoAssetPriceDelegate.c_get_mid_price ⟨"MNTL", "osmosis", 30⟩
        (CoinGeckoAssetPriceDelegate.c_get_mid_price ⟨"MNTL", "osmosis", 30⟩
          ⟨none, none, 0⟩ (Except.ok [⟨"mntl", "assetmantle"⟩]) none 10).2.1
        (Except.ok [⟨"mntl", "assetmantle"⟩]) none
        20).2.2.resolveCalls = 0) ∧
    ((CoinGeckoAssetPriceDelegate.c_get_mid_price ⟨"MNTL", "osmosis", 30⟩
        ⟨none, none, 0⟩ (Except.error CoinGecko.NetErr.requestError) none
        10).2.1.base_token_coingecko_id = none ∧
      (CoinGeckoAssetPriceDelegate.c_get_mid_price ⟨"MNTL", "osmosis", 30⟩
        (CoinGeckoAssetPriceDelegate.c_get_mid_price ⟨"MNTL", "osmosis", 30⟩
          ⟨none, none, 0⟩ (Except.error CoinGecko.NetErr.requestError) none
          10).2.1 (Except.error CoinGecko.NetErr.requestError) none
        20).2.2.resolveCalls = 1) :=
  ⟨rfl, by decide, rfl,
   (c6_resolution_memoization ⟨"MNTL", "osmosis", 30⟩ ⟨none, none, 0⟩
     (Except.ok [⟨"mntl", "assetmantle"⟩]) (Except.ok [⟨"mntl", "assetmantle"⟩])
     none none 10 20 rfl).2.1 "assetmantle" (by decide),
   (c6_resolution_memoization ⟨"MNTL", "osmosis", 30⟩ ⟨none, none, 0⟩
     (Except.error CoinGecko.NetErr.requestError)
     (Except.error CoinGecko.NetErr.requestError) none none 10 20 rfl).2.2
     rfl⟩

/-- C8 counterexample: the standalone get_coingecko_id of
scripts/simple_pmm_cg.py and test.py has no try/except, so a network error
during symbol resolution escapes to the caller as an exception instead of
being converted to the absent result; the claim that no exception ever
escapes from resolve is therefore false for these variants. -/
theorem c8_counterexample :
    SimplePmmCg.get_coingecko_id
      (Except.error CoinGecko.NetErr.requestError) "MNTL" =
      Except.error CoinGecko.NetErr.requestError := rfl

/-- C8 (amended): price fetching and the delegate's symbol resolution catch
every network error at their own boundary and convert it to the absent
result, but the standalone get_coingecko_id of scripts/simple_pmm_cg.py and
test.py propagates network errors to its caller unchanged. -/
theorem c8_error_boundary :
    (∀ (e : CoinGecko.NetErr) (sym : String),
      CoinGeckoAssetPriceDelegate.get_coingecko_id (Except.error e) sym =
        none) ∧
    (∀ m : String,
      CoinGecko.get_price_from_specific_market_coingecko none m = none) ∧
    (∀ (e : CoinGecko.NetErr) (sym : String),
      SimplePmmCg.get_coingecko_id (Except.error e) sym = Except.error e) :=
  ⟨fun _ _ => rfl, fun _ => rfl, fun _ _ => rfl⟩
